import Mathlib

/-!
Verification of the declarative-to-source resource compiler (low-code-app).

This file shallowly embeds the data model of the resource compiler and operations:
the endpoint synthesizer (`src/lib/codegen/endpoints.ts`), the table
synthesizer (`src/lib/codegen/templates.ts`, tables half), the template
synthesizer (`src/lib/codegen/templates.ts`, templates half), the layout
synthesizer (`src/lib/codegen/layout.ts`), the route utilities
(`src/lib/codegen/routes.ts` and `src/lib/codegen/utils/fs.ts`), and the
runtime behaviour of the generated endpoint handlers.

Modelling conventions:
- JavaScript objects used as string-keyed dictionaries are modelled as
  insertion-ordered association lists (`jsGet`/`jsSet`/`jsDel`), matching
  JS semantics: assigning an existing key keeps its position, assigning a
  fresh key appends it, `delete` removes it.
- The persisted manifest files are modelled as the mapped values themselves
  (the JSON (de)serialisation of the manifest store round-trips and is not
  re-verified here); generated source artifacts are modelled byte-exactly
  as the strings the code emits.
- File systems are modelled as association lists from path to content plus
  a list of created directories; `fs` promises always succeed (I/O failure
  is outside the model).
- JS strings are modelled as Lean `String`, with the JS string primitives
  re-implemented over `String.data` so that they are both executable and
  amenable to proof.  JS number values that occur in the modelled payloads
  are integers (`Int`).
-/

namespace LowCode

/-! ## Insertion-ordered association lists (JS object semantics) -/

/-- The `obj[k]`: first (and in real JS, only) binding of key `k`. -/
def jsGet {κ α : Type} [DecidableEq κ] (k : κ) : List (κ × α) → Option α
  | [] => none
  | (k', v) :: xs => if k' = k then some v else jsGet k xs

/-- The `obj[k] = v`: overwrite in place if the key exists, else append. -/
def jsSet {κ α : Type} [DecidableEq κ] (k : κ) (v : α) : List (κ × α) → List (κ × α)
  | [] => [(k, v)]
  | (k', v') :: xs => if k' = k then (k, v) :: xs else (k', v') :: jsSet k v xs

/-- The `delete obj[k]`. -/
def jsDel {κ α : Type} [DecidableEq κ] (k : κ) : List (κ × α) → List (κ × α)
  | [] => []
  | (k', v') :: xs => if k' = k then jsDel k xs else (k', v') :: jsDel k xs

/-- The `Object.keys(obj)`. -/
def keysOf {κ α : Type} : List (κ × α) → List κ
  | [] => []
  | (k, _) :: xs => k :: keysOf xs

/-- The `Object.values(obj)`. -/
def valuesOf {κ α : Type} : List (κ × α) → List α
  | [] => []
  | (_, v) :: xs => v :: valuesOf xs

/-! ## JS string primitives, re-implemented over `String.data` -/

/-- A single apostrophe (U+0027), used when assembling generated source. -/
def apos : String := String.singleton (Char.ofNat 39)

/-- The `s.startsWith(pre)`. -/
def jsStartsWith (s pre : String) : Bool := pre.data.isPrefixOf s.data

/-- The `s.endsWith(post)`. -/
def jsEndsWith (s post : String) : Bool := post.data.isSuffixOf s.data

/-- Split a character list at every occurrence of `c` (JS `split`). -/
def splitChars (c : Char) : List Char → List (List Char)
  | [] => [[]]
  | x :: xs =>
    if x = c then [] :: splitChars c xs
    else
      match splitChars c xs with
      | [] => [[x]]
      | g :: gs => (x :: g) :: gs

/-- The `s.split(c)` for a single-character separator. -/
def jsSplit (c : Char) (s : String) : List String :=
  (splitChars c s.data).map String.mk

/-- JS whitespace test for the characters relevant here (`String.prototype.trim`). -/
def isJsSpace (c : Char) : Bool := c = ' ' ∨ c = Char.ofNat 9 ∨ c = Char.ofNat 10 ∨ c = Char.ofNat 13

/-- The `s.trim()`. -/
def jsTrim (s : String) : String :=
  String.mk (((s.data.dropWhile isJsSpace).reverse.dropWhile isJsSpace).reverse)

/-- The `value.replace(/[^a-zA-Z0-9_]/g, '_')` — shared sanitization step. -/
def replaceNonWord (s : String) : String :=
  String.mk (s.data.map (fun c => if c.isAlphanum ∨ c = '_' then c else '_'))

/-- The `value.replace` with regex `/^[0-9]/` and replacement `_$&` — prefix an identifier starting with a digit. -/
def prefixDigit (s : String) : String :=
  match s.data with
  | [] => s
  | c :: _ => if c.isDigit then "_" ++ s else s

/-- The `s.replace` with regex `/\/$/` and empty replacement: strip one trailing slash, if present. -/
def stripOneTrailingSlash (s : String) : String :=
  match s.data.reverse with
  | [] => s
  | c :: rest => if c = '/' then String.mk rest.reverse else s

/-- The `file.slice(0, -n)` at the character level (used for `path.basename(f, suffix)`). -/
def dropRightChars (n : Nat) (s : String) : String :=
  String.mk (s.data.take (s.data.length - n))

/-- The `s.replace(/\/+/g, '/')`: collapse runs of slashes. -/
def collapseChars : List Char → List Char
  | [] => []
  | [c] => [c]
  | c :: d :: rest =>
    if c = '/' ∧ d = '/' then collapseChars (d :: rest)
    else c :: collapseChars (d :: rest)

/-- The `s.replace(/\/+/g, '/')` on strings. -/
def collapseSlashes (s : String) : String := String.mk (collapseChars s.data)

/-- Lexicographic code-point order on strings (default JS `Array.prototype.sort`
comparator for strings). -/
def charListLe : List Char → List Char → Bool
  | [], _ => true
  | _ :: _, [] => false
  | a :: as, b :: bs =>
    if a < b then true
    else if b < a then false
    else charListLe as bs

/-- Boolean string order backing `sortStrings`. -/
def strLeB (a b : String) : Bool := charListLe a.data b.data

/-- Insert into a sorted list of strings. -/
def insertStr (x : String) : List String → List String
  | [] => [x]
  | y :: ys => if strLeB x y then x :: y :: ys else y :: insertStr x ys

/-- The `arr.sort()` for string arrays (insertion sort; JS sort is also
comparison-based and the emitted artifacts depend only on the sorted order). -/
def sortStrings : List String → List String
  | [] => []
  | x :: xs => insertStr x (sortStrings xs)

/-! ## Endpoint data model (`src/lib/flow/schemas.ts`) -/

/-- HTTP methods accepted by the endpoint schema. -/
inductive Method where
  | GET
  | POST
  | DELETE
deriving DecidableEq

/-- The method name as it appears in generated code. -/
def Method.toStr : Method → String
  | .GET => "GET"
  | .POST => "POST"
  | .DELETE => "DELETE"

/-- The `method.toLowerCase()`. -/
def Method.toLowerStr : Method → String
  | .GET => "get"
  | .POST => "post"
  | .DELETE => "delete"

/-- The `action ∈ {select, insert, delete}`. -/
inductive EAction where
  | select
  | insert
  | delete
deriving DecidableEq

/-- Comparison operators of a `where` condition (`=`, `!=`, `>`, `>=`, `<`, `<=`).
The zod schema restricts `op` to exactly these six strings, so the
`default:` branch of `operatorExpression`/`collectComparatorImports`
is unreachable and not modelled. -/
inductive WhereOp where
  | opEq
  | opNe
  | opGt
  | opGte
  | opLt
  | opLte
deriving DecidableEq

/-- One entry of the endpoint `where` list. -/
structure WhereCond where
  column : String
  op : WhereOp
  source : String
deriving DecidableEq

/-- The `EndpointPayload`.  `fieldMapping` is a JS record (ordered pairs) and
`where` an optional array; the field is called `whereConds` because `where`
is a Lean keyword. -/
structure EndpointConfig where
  method : Method
  path : String
  table : String
  action : EAction
  fieldMapping : Option (List (String × String)) := none
  whereConds : Option (List WhereCond) := none
deriving DecidableEq

/-- The per-path method group stored in the endpoint manifest
(`Partial<Record<Method, EndpointConfig>>`, insertion-ordered). -/
abbrev MethodGroup := List (Method × EndpointConfig)

/-! ## Endpoint synthesizer (`src/lib/codegen/endpoints.ts`) -/

/-- The `normalizeApiPath`: trim, ensure a leading `/`, ensure a `/api` prefix,
strip one trailing slash. -/
def normalizeApiPath (apiPath : String) : String :=
  let normalized := jsTrim apiPath
  let normalized := if jsStartsWith normalized "/" then normalized else "/" ++ normalized
  let normalized := if jsStartsWith normalized "/api" then normalized else "/api" ++ normalized
  stripOneTrailingSlash normalized

/-- The `routeSegments`: drop the `/api` prefix, split on `/`, drop empty
segments, and turn `:x` into `[x]`. -/
def routeSegments (apiPath : String) : List String :=
  let withoutApi := if jsStartsWith apiPath "/api" then String.mk (apiPath.data.drop 4) else apiPath
  ((jsSplit '/' withoutApi).filter (fun s => s ≠ "")).map
    (fun segment =>
      if jsStartsWith segment ":" then "[" ++ String.mk (segment.data.drop 1) ++ "]"
      else segment)

/-- The `toIdentifier` (defined identically in `endpoints.ts` and
`templates.ts`): replace characters outside `[a-zA-Z0-9_]` with `_`, then
prefix identifiers starting with a digit. -/
def toIdentifier (value : String) : String := prefixDigit (replaceNonWord value)

/-- The `buildSourceResolver()`: the fixed preamble emitted into every route
artifact. -/
def buildSourceResolver : String :=
  "type RouteContext = \x7b params: Record<string, string> \x7d;\n\n" ++
  "type SourceBag = \x7b\n  body?: Record<string, any>;\n  query: URLSearchParams;\n  params: Record<string, string>;\n\x7d;\n\n" ++
  "function readFromSource(source: string, bag: SourceBag) \x7b\n" ++
  "  if (!source) return undefined;\n" ++
  "  const [scope, ...rest] = source.split(" ++ apos ++ "." ++ apos ++ ");\n" ++
  "  if (scope === " ++ apos ++ "body" ++ apos ++ ") \x7b\n" ++
  "    return rest.reduce((acc, key) => (acc ? acc[key] : undefined), bag.body);\n" ++
  "  \x7d\n" ++
  "  if (scope === " ++ apos ++ "query" ++ apos ++ ") \x7b\n" ++
  "    return bag.query.get(rest.join(" ++ apos ++ "." ++ apos ++ ")) ?? undefined;\n" ++
  "  \x7d\n" ++
  "  if (scope === " ++ apos ++ "params" ++ apos ++ ") \x7b\n" ++
  "    return bag.params[rest.join(" ++ apos ++ "." ++ apos ++ ")];\n" ++
  "  \x7d\n" ++
  "  return undefined;\n" ++
  "\x7d\n"

/-- The `operatorExpression`: comparator call for one `where` condition. -/
def operatorExpression (op : WhereOp) (table column valueVar : String) : String :=
  let columnId := toIdentifier table ++ "." ++ toIdentifier column
  match op with
  | .opEq => "eq(" ++ columnId ++ ", " ++ valueVar ++ ")"
  | .opNe => "ne(" ++ columnId ++ ", " ++ valueVar ++ ")"
  | .opGt => "gt(" ++ columnId ++ ", " ++ valueVar ++ ")"
  | .opGte => "gte(" ++ columnId ++ ", " ++ valueVar ++ ")"
  | .opLt => "lt(" ++ columnId ++ ", " ++ valueVar ++ ")"
  | .opLte => "lte(" ++ columnId ++ ", " ++ valueVar ++ ")"

/-- One pushed line of `buildWhereClauses` (resolve the source, and push a
filter only when the resolved value is neither `undefined` nor `null`). -/
def whereConditionLines (aliasName table : String) (idx : Nat) (c : WhereCond) : String :=
  let valueVar := aliasName ++ "Value" ++ toString idx
  "  const " ++ valueVar ++ " = readFromSource(" ++ apos ++ c.source ++ apos ++ ", bag);\n" ++
  "  if (" ++ valueVar ++ " !== undefined && " ++ valueVar ++ " !== null) \x7b\n" ++
  "    filters.push(" ++ operatorExpression c.op table c.column valueVar ++ ");\n" ++
  "  \x7d"

/-- The `buildWhereClauses`: the where-clause assembly emitted into a handler. -/
def buildWhereClauses (config : EndpointConfig) (aliasName : String) : String :=
  let lines := (config.whereConds.getD []).enum.map
    (fun p => whereConditionLines aliasName config.table p.1 p.2)
  if lines.length ≠ 0 then
    "  const filters: any[] = [];\n" ++ String.intercalate "\n" lines ++ "\n" ++
    "  const whereClause = filters.length === 0 ? undefined : filters.length === 1 ? filters[0] : and(...filters);\n"
  else "  const whereClause = undefined;\n"

/-- The `needsBody`: whether any declared source reads the `body.` scope. -/
def needsBody (config : EndpointConfig) : Bool :=
  let mappingSources := valuesOf (config.fieldMapping.getD [])
  let whereSources := (config.whereConds.getD []).map (fun c => c.source)
  (mappingSources ++ whereSources).any (fun source => jsStartsWith source "body.")

/-- The `buildFieldMapping`: the insert-values record emitted into a handler. -/
def buildFieldMapping (config : EndpointConfig) : String :=
  let entries := config.fieldMapping.getD []
  if entries.length = 0 then "  const values = \x7b\x7d as Record<string, any>;\n"
  else
    let lines := entries.map (fun e =>
      "    " ++ e.1 ++ ": readFromSource(" ++ apos ++ e.2 ++ apos ++ ", bag)")
    "  const values = \x7b\n" ++ String.intercalate ",\n" lines ++
    "\n  \x7d as Record<string, any>;\n"

/-- The `operationBlock` of `buildMethodHandler`, by action. -/
def operationBlock (config : EndpointConfig) (tableId : String) : String :=
  match config.action with
  | .select =>
    "  let query = db.select().from(" ++ tableId ++ ");\n" ++
    "  if (whereClause) \x7b\n    query = query.where(whereClause);\n  \x7d\n" ++
    "  const data = await query;\n" ++
    "  return NextResponse.json(\x7b ok: true, data \x7d);"
  | .insert =>
    buildFieldMapping config ++
    "  const result = await db.insert(" ++ tableId ++ ").values(values).returning();\n" ++
    "  return NextResponse.json(\x7b ok: true, data: result \x7d);"
  | .delete =>
    "  if (!whereClause) \x7b\n" ++
    "    throw new Error(" ++ apos ++ "Delete endpoint requires a where clause." ++ apos ++ ");\n" ++
    "  \x7d\n" ++
    "  const result = await db.delete(" ++ tableId ++ ").where(whereClause).returning();\n" ++
    "  return NextResponse.json(\x7b ok: true, data: result \x7d);"

/-- The `buildMethodHandler`: the full `export async function METHOD(...)`
handler emitted for one method. -/
def buildMethodHandler (method : Method) (config : EndpointConfig) : String :=
  let tableId := toIdentifier config.table
  let sourceResolver := buildWhereClauses config method.toLowerStr
  let requiresBody := needsBody config ∨ config.action = .insert
  let bodyLine := if requiresBody then "  const body = await request.json();\n"
    else "  const body = undefined;\n"
  let bagLine := "  const bag: SourceBag = \x7b body, query: request.nextUrl.searchParams, params \x7d as SourceBag;\n"
  "export async function " ++ method.toStr ++ "(request: NextRequest, context: RouteContext) \x7b\n" ++
  "  try \x7b\n" ++
  "    const params = context?.params ?? \x7b\x7d;\n" ++
  bodyLine ++ bagLine ++ sourceResolver ++ operationBlock config tableId ++ "\n" ++
  "  \x7d catch (error) \x7b\n" ++
  "    console.error(error);\n" ++
  "    return NextResponse.json(\x7b ok: false, error: (error as Error).message \x7d, \x7b status: 500 \x7d);\n" ++
  "  \x7d\n" ++
  "\x7d\n"

/-- The drizzle import name for one comparison operator. -/
def opImport : WhereOp → String
  | .opEq => "eq"
  | .opNe => "ne"
  | .opGt => "gt"
  | .opGte => "gte"
  | .opLt => "lt"
  | .opLte => "lte"

/-- The `Set.add` followed by `Array.from`: append if not already present. -/
def addIfAbsent (x : String) (l : List String) : List String :=
  if x ∈ l then l else l ++ [x]

/-- The `collectComparatorImports`: comparator names used by any method at a
path, in first-insertion order. -/
def collectComparatorImports (methods : MethodGroup) : List String :=
  (valuesOf methods).foldl
    (fun acc config =>
      let conds := config.whereConds.getD []
      let acc := if conds.length > 0 then addIfAbsent "and" acc else acc
      let acc := conds.foldl (fun a c => addIfAbsent (opImport c.op) a) acc
      if conds.length > 1 then addIfAbsent "and" acc else acc)
    []

/-- The `buildRouteFile`: the whole route artifact for the method group of one path
(empty string when no methods remain). -/
def buildRouteFile (pathKey : String) (methods : MethodGroup) : String :=
  let methodEntries := methods
  if methodEntries.length = 0 then ""
  else
    let tables := methodEntries.foldl (fun acc e => addIfAbsent e.2.table acc) []
    let tableImports := String.intercalate "\n" (tables.map (fun table =>
      "import \x7b " ++ toIdentifier table ++ " \x7d from " ++ apos ++
      "@/db/schema/" ++ table ++ apos ++ ";"))
    let comparatorImports := collectComparatorImports methods
    let comparatorLine :=
      if comparatorImports.length ≠ 0 then
        "import \x7b " ++ String.intercalate ", " comparatorImports ++ " \x7d from " ++
        apos ++ "drizzle-orm" ++ apos ++ ";\n"
      else ""
    let handlers := String.intercalate "\n"
      (methodEntries.map (fun e => buildMethodHandler e.1 e.2))
    "import \x7b NextRequest, NextResponse \x7d from " ++ apos ++ "next/server" ++ apos ++ ";\n" ++
    "import \x7b db \x7d from " ++ apos ++ "@/db/client" ++ apos ++ ";\n" ++
    tableImports ++ "\n" ++ comparatorLine ++ buildSourceResolver ++ handlers

/-- Result envelope `{ ok, message }` returned by the resource handlers. -/
structure OpResult where
  ok : Bool
  message : String
deriving DecidableEq

/-- Persistent state touched by the endpoint synthesizer: the endpoint
manifest (path key → method group) and the generated route artifacts
(file path → content). -/
structure EndpointState where
  manifest : List (String × MethodGroup)
  files : List (String × String)
deriving DecidableEq

/-- The `path.join` of `src/app/api`, the route segments, and `route.ts`,
with the workspace root modelled as the empty prefix. -/
def routeFilePath (pathKey : String) : String :=
  String.intercalate "/" ("src/app/api" :: routeSegments pathKey) ++ "/route.ts"

/-- The `writeRouteFile`: write the artifact, or remove it when the content is
empty. -/
def writeRouteFile (pathKey : String) (methods : MethodGroup)
    (files : List (String × String)) : List (String × String) :=
  let content := buildRouteFile pathKey methods
  let filePath := routeFilePath pathKey
  if content = "" then jsDel filePath files
  else jsSet filePath content files

/-- The `upsertEndpoint`. -/
def upsertEndpoint (payload : EndpointConfig) (s : EndpointState) :
    EndpointState × OpResult :=
  let pathKey := normalizeApiPath payload.path
  let group := jsSet payload.method payload ((jsGet pathKey s.manifest).getD [])
  let manifest := jsSet pathKey group s.manifest
  let files := writeRouteFile pathKey group s.files
  (⟨manifest, files⟩,
   ⟨true, "Endpoint " ++ payload.method.toStr ++ " " ++ pathKey ++ " generated."⟩)

/-- The `deleteEndpoint`. -/
def deleteEndpoint (path : String) (method : Method) (s : EndpointState) :
    EndpointState × OpResult :=
  let pathKey := normalizeApiPath path
  match jsGet pathKey s.manifest with
  | none => (s, ⟨true, "Endpoint already removed."⟩)
  | some group =>
    let group := jsDel method group
    let manifest :=
      if group.length = 0 then jsDel pathKey s.manifest
      else jsSet pathKey group s.manifest
    let files := writeRouteFile pathKey ((jsGet pathKey manifest).getD []) s.files
    (⟨manifest, files⟩,
     ⟨true, "Endpoint " ++ method.toStr ++ " " ++ pathKey ++ " removed."⟩)

/-! ## Runtime semantics of the generated endpoint handlers

The strings produced by `buildMethodHandler` are TypeScript; the following
definitions give the meaning of that emitted program so that claims about
what a generated handler does at request time can be stated.  Each
definition mirrors one fragment of the emitted handler text. -/

/-- JS values flowing through a generated handler.  Numbers are modelled as
integers (no claim depends on float arithmetic). -/
inductive JsVal where
  | undefined
  | jnull
  | str (s : String)
  | int (n : Int)
  | bool (b : Bool)
  | obj (fields : List (String × JsVal))
  | arr (elems : List JsVal)

/-- The `undefined` or `null` — the two values the emitted
`if (v !== undefined && v !== null)` guard skips. -/
def JsVal.isNullish : JsVal → Bool
  | .undefined => true
  | .jnull => true
  | _ => false

/-- JS truthiness, used by the emitted `acc ? acc[key] : undefined`. -/
def JsVal.truthy : JsVal → Bool
  | .undefined => false
  | .jnull => false
  | .str s => s ≠ ""
  | .int n => n ≠ 0
  | .bool b => b
  | .obj _ => true
  | .arr _ => true

/-- The `acc[key]` for one step of the emitted body traversal.  String
character indexing is not modelled (no claim touches it). -/
def JsVal.index (v : JsVal) (key : String) : JsVal :=
  match v with
  | .obj fields => (jsGet key fields).getD .undefined
  | .arr elems =>
    match key.toNat? with
    | some i => elems.getD i .undefined
    | none => .undefined
  | _ => .undefined

/-- The `{ body, query, params }` source bag the handler builds from the
request. -/
structure SourceBag where
  body : JsVal := .undefined
  query : List (String × String) := []
  params : List (String × String) := []

/-- The emitted `readFromSource(source, bag)` helper: dotted-path lookup
into the body, single-key lookup into query parameters or path params. -/
def readFromSource (source : String) (bag : SourceBag) : JsVal :=
  if source = "" then .undefined
  else
    match jsSplit '.' source with
    | [] => .undefined
    | scope :: rest =>
      if scope = "body" then
        rest.foldl (fun acc key => if acc.truthy then acc.index key else .undefined) bag.body
      else if scope = "query" then
        match jsGet (String.intercalate "." rest) bag.query with
        | some v => .str v
        | none => .undefined
      else if scope = "params" then
        match jsGet (String.intercalate "." rest) bag.params with
        | some v => .str v
        | none => .undefined
      else .undefined

/-- A pushed filter: the data of one emitted comparator call
`op(table.column, value)`. -/
structure Filter where
  op : WhereOp
  column : String
  value : JsVal

/-- The filter list the emitted handler accumulates: one filter per `where`
condition whose resolved source value is neither `undefined` nor `null`
(nullish conditions are skipped). -/
def buildFilters (conds : List WhereCond) (bag : SourceBag) : List Filter :=
  conds.filterMap (fun c =>
    let v := readFromSource c.source bag
    if v.isNullish then none else some ⟨c.op, c.column, v⟩)

/-- A database row, as the storage collaborator hands it back. -/
abbrev Row := List (String × JsVal)

/-- An interpretation of the drizzle comparators (`eq`, `ne`, ...); the
comparator semantics live in the storage collaborator, so the handler
semantics is parametric in it. -/
abbrev CompareSem := WhereOp → String → JsVal → Row → Bool

/-- The emitted
`filters.length === 0 ? undefined : filters.length === 1 ? filters[0] : and(...filters)`,
with `and(...)` interpreted as conjunction. -/
def whereClauseSem (sem : CompareSem) (filters : List Filter) : Option (Row → Bool) :=
  match filters with
  | [] => none
  | [f] => some (fun r => sem f.op f.column f.value r)
  | fs => some (fun r => fs.all (fun f => sem f.op f.column f.value r))

/-- Response of one generated handler invocation: the JSON envelope
(`{ ok: true, data }` or the catch-block `{ ok: false, error }`). -/
inductive HandlerResponse where
  | success (data : List Row)
  | failure (message : String)

/-- One generated handler invocation: the response together with the table
contents after the storage operation. -/
structure HandlerRun where
  response : HandlerResponse
  table : List Row

/-- Runtime meaning of the handler emitted by `buildMethodHandler` for
`config`, once the request has been resolved into a source bag: `select`
returns the (optionally filtered) rows; `insert` appends the values record
built from `fieldMapping`; `delete` throws (caught into a failure
response) when no filter survived, and otherwise removes the matching
rows and returns them. -/
def runHandler (sem : CompareSem) (config : EndpointConfig) (bag : SourceBag)
    (rows : List Row) : HandlerRun :=
  let filters := buildFilters (config.whereConds.getD []) bag
  let whereClause := whereClauseSem sem filters
  match config.action with
  | .select =>
    match whereClause with
    | none => ⟨.success rows, rows⟩
    | some f => ⟨.success (rows.filter f), rows⟩
  | .insert =>
    let values : Row := (config.fieldMapping.getD []).map
      (fun e => (e.1, readFromSource e.2 bag))
    ⟨.success [values], rows ++ [values]⟩
  | .delete =>
    match whereClause with
    | none => ⟨.failure "Delete endpoint requires a where clause.", rows⟩
    | some f => ⟨.success (rows.filter f), rows.filter (fun r => ¬ f r)⟩

/-! ## Table synthesizer (`src/lib/codegen/templates.ts`, tables half)

The schema directory is modelled flat: file names are the association-list
keys (`readdir` order only feeds a subsequent `sort`, so it does not
matter), and the `_archive` subdirectory appears in the directory listing
as the entry `"_archive"` once it has been created. -/

/-- Column types accepted by the table schema. -/
inductive ColType where
  | integer
  | text
  | real
  | boolean
deriving DecidableEq

/-- The `default` values: `string | number | boolean` (numbers as integers). -/
inductive DefaultVal where
  | str (s : String)
  | num (n : Int)
  | boolean (b : Bool)
deriving DecidableEq

/-- The `foreignKey` specification of a column (`fk` in the payload). -/
structure ForeignKey where
  table : String
  column : String
  onDelete : Option String := none
deriving DecidableEq

/-- One column of a table payload.  The optional booleans are only ever
tested for truthiness, so an absent flag and `false` coincide. -/
structure Column where
  name : String
  type : ColType
  primaryKey : Bool := false
  autoIncrement : Bool := false
  notNull : Bool := false
  default : Option DefaultVal := none
  fk : Option ForeignKey := none
deriving DecidableEq

/-- The `TablePayload`. -/
structure TablePayload where
  tableName : String
  displayName : Option String := none
  columns : List Column
deriving DecidableEq

/-- The `typeMap`: declared type → drizzle column builder (`boolean` is
integer-backed). -/
def typeMap : ColType → String
  | .integer => "integer"
  | .text => "text"
  | .real => "real"
  | .boolean => "integer"

/-- The `formatDefault`: string defaults quoted, others stringified. -/
def formatDefault : Option DefaultVal → Option String
  | some (.str s) => some ("\"" ++ s ++ "\"")
  | some (.num n) => some (toString n)
  | some (.boolean b) => some (if b then "true" else "false")
  | none => none

/-- The `columnToString`: the builder-chain expression for one column. -/
def columnToString (column : Column) (tableId tableName : String) : String :=
  let identifier := toIdentifier column.name
  let builder := typeMap column.type ++ "(\"" ++ column.name ++ "\")"
  let builder := if column.type = .boolean then builder ++ ".$type<boolean>()" else builder
  let builder :=
    if column.primaryKey then
      builder ++ ".primaryKey(" ++
        (if column.autoIncrement then "\x7b autoIncrement: true \x7d" else "") ++ ")"
    else builder
  let builder := if column.notNull then builder ++ ".notNull()" else builder
  let builder :=
    match formatDefault column.default with
    | some d => builder ++ ".default(" ++ d ++ ")"
    | none => builder
  let builder :=
    match column.fk with
    | some fk =>
      let fkTable := if fk.table = tableName then tableId else toIdentifier fk.table
      let fkColumn := toIdentifier fk.column
      let onDel :=
        match fk.onDelete with
        | some a => "\x7b onDelete: \"" ++ a ++ "\" \x7d"
        | none => "undefined"
      builder ++ ".references(() => " ++ fkTable ++ "." ++ fkColumn ++ ", " ++ onDel ++ ")"
    | none => builder
  identifier ++ ": " ++ builder

/-- The `buildImports`: sorted drizzle-orm/sqlite-core import list. -/
def buildImports (payload : TablePayload) : String :=
  let imports := payload.columns.foldl
    (fun acc c => addIfAbsent (typeMap c.type) acc) ["sqliteTable"]
  "import \x7b " ++ String.intercalate ", " (sortStrings imports) ++ " \x7d from " ++
    apos ++ "drizzle-orm/sqlite-core" ++ apos ++ ";"

/-- The `buildForeignKeyImports`: one import per distinct cross-table foreign
key target, in first-occurrence order. -/
def buildForeignKeyImports (payload : TablePayload) : String :=
  let fkTables := payload.columns.foldl
    (fun acc c =>
      match c.fk with
      | some fk => if fk.table ≠ payload.tableName then addIfAbsent fk.table acc else acc
      | none => acc)
    []
  String.intercalate "\n" (fkTables.map (fun table =>
    "import \x7b " ++ toIdentifier table ++ " \x7d from " ++ apos ++ "./" ++ table ++ apos ++ ";"))

/-- The `generateTableContent`: the schema artifact body for one table. -/
def generateTableContent (payload : TablePayload) : String :=
  let imports := buildImports payload
  let fkImports := buildForeignKeyImports payload
  let tableId := toIdentifier payload.tableName
  let columns := String.intercalate ",\n  "
    (payload.columns.map (fun c => columnToString c tableId payload.tableName))
  let headerComment :=
    match payload.displayName with
    | some d => if d ≠ "" then "// " ++ d ++ "\n" else ""
    | none => ""
  let fkSection := if fkImports ≠ "" then "\n" ++ fkImports else ""
  headerComment ++ imports ++ (if fkSection ≠ "" then "\n" ++ fkSection else "") ++
    "\n\nexport const " ++ tableId ++ " = sqliteTable(" ++ apos ++ payload.tableName ++
    apos ++ ", \x7b\n  " ++ columns ++ "\n\x7d);\n"

/-- The `path.basename(file, suffix)` with suffix `.ts` for the flat file names at hand: strip the
suffix unless the name is exactly the suffix. -/
def jsBasenameTs (file : String) : String :=
  if file ≠ ".ts" ∧ jsEndsWith file ".ts" then dropRightChars 3 file else file

/-- The filter of `updateSchemaIndex`: `.ts` files except the index itself
and anything archived (leading underscore). -/
def indexPred (file : String) : Bool :=
  jsEndsWith file ".ts" ∧ file ≠ "index.ts" ∧ ¬ jsStartsWith file "_"

/-- The content `updateSchemaIndex` writes, given the sorted list of schema
source files it re-exports. -/
def schemaIndexContent (files : List String) : String :=
  let exportLines := String.intercalate "\n" (files.map (fun file =>
    "export * from " ++ apos ++ "./" ++ jsBasenameTs file ++ apos ++ ";"))
  "// Auto-generated schema exports\n" ++
    (if exportLines ≠ "" then exportLines else "export \x7b\x7d;\n")

/-- Persistent state touched by the table synthesizer: the schema directory
(file name → content, including `index.ts`), the archive directory, whether
the archive directory exists, the `DROP TABLE` statements issued, and the
number of migration (drizzle) runs. -/
structure TableState where
  schemaFiles : List (String × String)
  archiveFiles : List (String × String) := []
  archiveDirExists : Bool := false
  dropped : List String := []
  drizzleRuns : Nat := 0
deriving DecidableEq

/-- The `listFiles(schemaDir)`: the file names plus the `_archive` directory
entry when present. -/
def listSchemaDir (s : TableState) : List String :=
  keysOf s.schemaFiles ++ (if s.archiveDirExists then ["_archive"] else [])

/-- The sorted, filtered schema source files the regenerated index
re-exports. -/
def indexSourceFiles (s : TableState) : List String :=
  sortStrings ((listSchemaDir s).filter indexPred)

/-- The `updateSchemaIndex`: regenerate `index.ts` from the current directory
listing. -/
def updateSchemaIndex (s : TableState) : TableState :=
  { s with schemaFiles :=
      jsSet "index.ts" (schemaIndexContent (indexSourceFiles s)) s.schemaFiles }

/-- The `sanitizeTableIdentifier`: the replace-only sanitization used by
`dropTable` (no digit-prefix step). -/
def sanitizeTableIdentifier (tableName : String) : String := replaceNonWord tableName

/-- The statement `dropTable` executes against the storage engine. -/
def dropTableStatement (tableName : String) : String :=
  "DROP TABLE IF EXISTS " ++ sanitizeTableIdentifier tableName ++ ";"

/-- The `runDrizzle`: the two-step external migration call (modelled as an
event counter; both steps succeeding is the only path inside the model). -/
def runDrizzle (s : TableState) : TableState := { s with drizzleRuns := s.drizzleRuns + 1 }

/-- The `upsertTable`. -/
def upsertTable (payload : TablePayload) (s : TableState) : TableState × OpResult :=
  let tableFile := payload.tableName ++ ".ts"
  let content := generateTableContent payload
  let s := { s with schemaFiles := jsSet tableFile content s.schemaFiles }
  let s := updateSchemaIndex s
  let s := runDrizzle s
  (s, ⟨true, "Table " ++ payload.tableName ++ " synced."⟩)

/-- The `deleteTable` at time `now` (`Date.now()`): archive the schema artifact
(never hard-delete), regenerate the index, drop the storage table, run the
migration. -/
def deleteTable (tableName : String) (now : Nat) (s : TableState) :
    TableState × OpResult :=
  let sourceFile := tableName ++ ".ts"
  let s :=
    match jsGet sourceFile s.schemaFiles with
    | some content =>
      { s with
        archiveDirExists := true,
        schemaFiles := jsDel sourceFile s.schemaFiles,
        archiveFiles :=
          jsSet (tableName ++ "-" ++ toString now ++ ".ts") content s.archiveFiles }
    | none => s
  let s := updateSchemaIndex s
  let s := { s with dropped := s.dropped ++ [dropTableStatement tableName] }
  let s := runDrizzle s
  (s, ⟨true, "Table " ++ tableName ++ " archived."⟩)

/-! ## Route utilities (`src/lib/codegen/utils/fs.ts`, `src/lib/codegen/routes.ts`) -/

/-- The `normalizeRoutePath`: ensure a leading slash; otherwise strip one
trailing slash, falling back to the root path. -/
def normalizeRoutePath (routePath : String) : String :=
  if ¬ jsStartsWith routePath "/" then "/" ++ routePath
  else
    let r := stripOneTrailingSlash routePath
    if r = "" then "/" else r

/-- The `:param` → `[param]`. -/
def bracketizeSeg (segment : String) : String :=
  "[" ++ String.mk (segment.data.drop 1) ++ "]"

/-- The `pathSegments`: split on `/`, drop empty segments, bracketize `:param`
segments. -/
def pathSegments (routePath : String) : List String :=
  ((jsSplit '/' routePath).filter (fun s => s ≠ "")).map
    (fun segment => if jsStartsWith segment ":" then bracketizeSeg segment else segment)

/-- One breadcrumb entry. -/
structure Crumb where
  label : String
  href : String
deriving DecidableEq

/-- The `segments.reduce` loop of `breadcrumbs`: accumulate prefixes,
pushing one crumb per segment. -/
def crumbsFrom (acc : String) : List String → List Crumb
  | [] => []
  | seg :: rest =>
    let href := collapseSlashes (acc ++ "/" ++ seg)
    ⟨seg, href⟩ :: crumbsFrom href rest

/-- The `breadcrumbs`. -/
def breadcrumbs (routePath : String) : List Crumb :=
  crumbsFrom "" ((jsSplit '/' routePath).filter (fun s => s ≠ ""))

/-- The `routeDir`: `path.join` of `src/app` and the path segments,
with the workspace root modelled as the empty prefix. -/
def routeDir (routePath : String) : String :=
  String.intercalate "/" ("src/app" :: pathSegments routePath)

/-- The `path.dirname`: everything before the last `/` (`.` when there is no
slash, as in Node). -/
def jsDirname (p : String) : String :=
  if '/' ∈ p.data then
    String.mk (((p.data.reverse.dropWhile (fun c => c ≠ '/')).drop 1).reverse)
  else "."

/-! ## Template data model (`src/lib/flow/schemas.ts`) -/

/-- The `bind` of an input/textarea component. -/
structure BindSpec where
  endpointPath : String
  field : String
deriving DecidableEq

/-- Button action methods. -/
inductive BtnMethod where
  | POST
  | GET
  | PUT
  | PATCH
  | DELETE
deriving DecidableEq

/-- Serialized button method name. -/
def BtnMethod.toStr : BtnMethod → String
  | .POST => "POST"
  | .GET => "GET"
  | .PUT => "PUT"
  | .PATCH => "PATCH"
  | .DELETE => "DELETE"

/-- The `action` of a button component (its `type` is the literal
`callEndpoint`; `method` defaults to `POST` in the schema). -/
structure BtnAction where
  endpointPath : String
  method : BtnMethod := .POST
deriving DecidableEq

/-- Button colors. -/
inductive BtnColor where
  | primary
  | secondary
  | danger
deriving DecidableEq

/-- Serialized button color name. -/
def BtnColor.toStr : BtnColor → String
  | .primary => "primary"
  | .secondary => "secondary"
  | .danger => "danger"

/-- The `dataSource` of a table component. -/
structure DataSource where
  endpointPath : String
  primaryKey : String
deriving DecidableEq

/-- One template component (`input`/`textarea`, `button`, `table`). -/
inductive Component where
  | input (id : String) (label : Option String) (isTextareaType : Bool)
      (placeholder : Option String) (bind : Option BindSpec)
  | button (id : String) (label : Option String) (color : Option BtnColor)
      (action : Option BtnAction)
  | table (id : String) (label : Option String) (tableName : String)
      (columns : Option (List String)) (dataSource : DataSource)
      (dynamicRouting : Option Bool)
deriving DecidableEq

/-- The `TemplatePayload`. -/
structure TemplatePayload where
  templateId : String
  routePath : String
  components : List Component
deriving DecidableEq

/-- The slice of a template payload kept in the template manifest. -/
structure TemplateMeta where
  templateId : String
  routePath : String
deriving DecidableEq

/-! ## JSON serialisation (`JSON.stringify`) of the parsed payloads -/

/-- JSON values as they occur in the serialised payloads. -/
inductive Jx where
  | str (s : String)
  | num (n : Int)
  | bool (b : Bool)
  | arr (elems : List Jx)
  | obj (fields : List (String × Jx))

/-- JSON escaping of one character (the payload strings relevant here
contain no other control characters). -/
def jsonEscapeChar (c : Char) : String :=
  if c = '"' then "\\\""
  else if c = Char.ofNat 92 then "\\\\"
  else if c = Char.ofNat 10 then "\\n"
  else if c = Char.ofNat 13 then "\\r"
  else if c = Char.ofNat 9 then "\\t"
  else String.singleton c

/-- A JSON string literal. -/
def jsonStr (s : String) : String :=
  "\"" ++ String.join (s.data.map jsonEscapeChar) ++ "\""

/-- The `n` spaces. -/
def spaces (n : Nat) : String := String.mk (List.replicate n ' ')

mutual

/-- The `JSON.stringify(v, null, 2)` at a given indentation level. -/
def renderJx (indent : Nat) : Jx → String
  | .str s => jsonStr s
  | .num n => toString n
  | .bool b => if b then "true" else "false"
  | .arr [] => "[]"
  | .arr (x :: xs) =>
    let inner := renderJxList (indent + 2) (x :: xs)
    "[\n" ++ String.intercalate ",\n" (inner.map (fun e => spaces (indent + 2) ++ e)) ++
      "\n" ++ spaces indent ++ "]"
  | .obj [] => "\x7b\x7d"
  | .obj (f :: fs) =>
    let inner := renderJxFields (indent + 2) (f :: fs)
    "\x7b\n" ++ String.intercalate ",\n" inner ++ "\n" ++ spaces indent ++ "\x7d"

/-- Render each array element. -/
def renderJxList (indent : Nat) : List Jx → List String
  | [] => []
  | x :: xs => renderJx indent x :: renderJxList indent xs

/-- Render each object field, indented. -/
def renderJxFields (indent : Nat) : List (String × Jx) → List String
  | [] => []
  | (k, v) :: fs =>
    (spaces indent ++ jsonStr k ++ ": " ++ renderJx indent v) :: renderJxFields indent fs

end

mutual

/-- Compact `JSON.stringify(v)`. -/
def renderJxC : Jx → String
  | .str s => jsonStr s
  | .num n => toString n
  | .bool b => if b then "true" else "false"
  | .arr xs => "[" ++ String.intercalate "," (renderJxCList xs) ++ "]"
  | .obj fs => "\x7b" ++ String.intercalate "," (renderJxCFields fs) ++ "\x7d"

/-- Render each array element, compactly. -/
def renderJxCList : List Jx → List String
  | [] => []
  | x :: xs => renderJxC x :: renderJxCList xs

/-- Render each object field, compactly. -/
def renderJxCFields : List (String × Jx) → List String
  | [] => []
  | (k, v) :: fs => (jsonStr k ++ ":" ++ renderJxC v) :: renderJxCFields fs

end

/-- An optional JSON field: present keys only (zod parse output omits
absent optional keys). -/
def optField (k : String) : Option Jx → List (String × Jx)
  | some j => [(k, j)]
  | none => []

/-- The JSON object of one parsed component, keys in schema-shape order. -/
def componentJx : Component → Jx
  | .input id label isTA placeholder bind =>
    .obj ([("id", .str id)] ++ optField "label" (label.map .str) ++
      [("type", .str (if isTA then "textarea" else "input"))] ++
      optField "placeholder" (placeholder.map .str) ++
      optField "bind" (bind.map (fun b =>
        .obj [("endpointPath", .str b.endpointPath), ("field", .str b.field)])))
  | .button id label color action =>
    .obj ([("id", .str id)] ++ optField "label" (label.map .str) ++
      [("type", .str "button")] ++
      optField "color" (color.map (fun c => .str c.toStr)) ++
      optField "action" (action.map (fun a =>
        .obj [("type", .str "callEndpoint"), ("endpointPath", .str a.endpointPath),
              ("method", .str a.method.toStr)])))
  | .table id label tableName columns dataSource dynamicRouting =>
    .obj ([("id", .str id)] ++ optField "label" (label.map .str) ++
      [("type", .str "table"), ("tableName", .str tableName)] ++
      optField "columns" (columns.map (fun cs => .arr (cs.map .str))) ++
      [("dataSource", .obj [("endpointPath", .str dataSource.endpointPath),
                            ("primaryKey", .str dataSource.primaryKey)])] ++
      optField "dynamicRouting" (dynamicRouting.map .bool))

/-! ## Template synthesizer (`src/lib/codegen/templates.ts`, templates half)
and route cascade targets (`src/lib/codegen/routes.ts`) -/

/-- The `/\s+(\w)/g` camelization replace of `toComponentName`: a run of
spaces followed by a word character becomes that character uppercased. -/
def camelChars : List Char → List Char
  | [] => []
  | [c] => [c]
  | c :: d :: rest =>
    if c = ' ' then
      if d = ' ' then camelChars (d :: rest)
      else d.toUpper :: camelChars rest
    else c :: camelChars (d :: rest)

/-- The `toComponentName` (the `templates.ts` version): non-alphanumerics to
spaces, camelize at space boundaries, drop remaining spaces, capitalize,
with a fallback for the empty result. -/
def toComponentName (templateId : String) : String :=
  let cleaned := String.mk
    ((camelChars (templateId.data.map (fun c => if c.isAlphanum then c else ' '))).filter
      (fun c => c ≠ ' '))
  let capitalized :=
    match cleaned.data with
    | [] => ""
    | c :: rest => String.mk (c.toUpper :: rest)
  if capitalized = "" then "GeneratedTemplate" else capitalized

/-- The generated-templates directory. -/
def templatesDir : String := "src/app/_generated/templates"

/-- The `templateFilePath`. -/
def templateFilePath (templateId : String) : String :=
  templatesDir ++ "/" ++ templateId ++ ".tsx"

/-- Path of the per-route template registry artifact. -/
def registryPath : String := templatesDir ++ "/registry.ts"

/-- The `buildTemplateFile`: the artifact exporting one template component. -/
def buildTemplateFile (payload : TemplatePayload) : String :=
  let componentName := toComponentName payload.templateId
  let components := renderJx 0 (.arr (payload.components.map componentJx))
  "import \x7b TemplateSurface \x7d from " ++ apos ++ "@/lib/templates/runtime" ++ apos ++ ";\n" ++
  "import type \x7b TemplateComponent \x7d from " ++ apos ++ "@/lib/templates/runtime" ++ apos ++ ";\n\n" ++
  "const componentsConfig = " ++ components ++ " satisfies TemplateComponent[];\n\n" ++
  "export default function " ++ componentName ++ "() \x7b\n" ++
  "  return (\n" ++
  "    <TemplateSurface templateId=\"" ++ payload.templateId ++ "\" routePath=\"" ++
    payload.routePath ++ "\" components=\x7bcomponentsConfig\x7d />\n" ++
  "  );\n" ++
  "\x7d\n"

/-- The registry artifact when no templates exist. -/
def registryEmptyContent : String :=
  "import type \x7b ComponentType \x7d from " ++ apos ++ "react" ++ apos ++ ";\n\n" ++
  "type TemplateEntry = \x7b templateId: string; Component: ComponentType \x7d;\n\n" ++
  "const registry: Record<string, TemplateEntry[]> = \x7b\x7d;\n\n" ++
  "export function getTemplatesForRoute(routePath: string): TemplateEntry[] \x7b\n" ++
  "  return registry[routePath] ?? [];\n" ++
  "\x7d\n"

/-- The `updateRegistry` content: imports once per template, entries grouped by
route path in first-occurrence order. -/
def registryContent (entries : List TemplateMeta) : String :=
  if entries.length = 0 then registryEmptyContent
  else
    let imports := String.intercalate "\n" (entries.map (fun e =>
      "import " ++ toComponentName e.templateId ++ " from " ++ apos ++ "./" ++
        e.templateId ++ apos ++ ";"))
    let grouped := entries.foldl
      (fun acc e => jsSet e.routePath ((jsGet e.routePath acc).getD [] ++ [e]) acc)
      ([] : List (String × List TemplateMeta))
    let registryLiteral := String.intercalate ",\n" (grouped.map (fun g =>
      let list := String.intercalate ", " (g.2.map (fun item =>
        "\x7b templateId: " ++ apos ++ item.templateId ++ apos ++ ", Component: " ++
          toComponentName item.templateId ++ " \x7d"))
      "  " ++ apos ++ g.1 ++ apos ++ ": [" ++ list ++ "]"))
    "import type \x7b ComponentType \x7d from " ++ apos ++ "react" ++ apos ++ ";\n" ++
    imports ++ "\n\n" ++
    "type TemplateEntry = \x7b templateId: string; Component: ComponentType \x7d;\n\n" ++
    "const registry: Record<string, TemplateEntry[]> = \x7b\n" ++ registryLiteral ++ "\n\x7d;\n\n" ++
    "export function getTemplatesForRoute(routePath: string): TemplateEntry[] \x7b\n" ++
    "  return registry[routePath] ?? [];\n" ++
    "\x7d\n"

/-- Options passed to `ensureDynamicRoute`. -/
structure DynRouteOptions where
  routePath : String
  endpointPath : String
  primaryKey : String
deriving DecidableEq

/-- The `dynamicPageContent`: the generated `[id]` detail page. -/
def dynamicPageContent (options : DynRouteOptions) : String :=
  apos ++ "use client" ++ apos ++ ";\n\n" ++
  "import \x7b useRouter \x7d from " ++ apos ++ "next/navigation" ++ apos ++ ";\n" ++
  "import \x7b useEffect, useState \x7d from " ++ apos ++ "react" ++ apos ++ ";\n" ++
  "import Link from " ++ apos ++ "next/link" ++ apos ++ ";\n\n" ++
  "export default function GeneratedDetailPage(\x7b params \x7d: \x7b params: Record<string, string> \x7d) \x7b\n" ++
  "  const router = useRouter();\n" ++
  "  const [record, setRecord] = useState<any | null>(null);\n" ++
  "  const [loading, setLoading] = useState(true);\n" ++
  "  const [error, setError] = useState(" ++ apos ++ apos ++ ");\n" ++
  "  useEffect(() => \x7b\n" ++
  "    const controller = new AbortController();\n" ++
  "    async function fetchDetail() \x7b\n" ++
  "      setLoading(true);\n" ++
  "      setError(" ++ apos ++ apos ++ ");\n" ++
  "      try \x7b\n" ++
  "        const res = await fetch(" ++ apos ++ options.endpointPath ++ "/" ++ apos ++
    " + params.id, \x7b cache: " ++ apos ++ "no-store" ++ apos ++
    ", signal: controller.signal \x7d);\n" ++
  "        const json = await res.json();\n" ++
  "        const data = Array.isArray(json.data) ? json.data[0] : json.data;\n" ++
  "        setRecord(data ?? null);\n" ++
  "      \x7d catch (err) \x7b\n" ++
  "        setError((err as Error).message);\n" ++
  "      \x7d finally \x7b\n" ++
  "        setLoading(false);\n" ++
  "      \x7d\n" ++
  "    \x7d\n" ++
  "    fetchDetail();\n" ++
  "    return () => controller.abort();\n" ++
  "  \x7d, [params.id]);\n\n" ++
  "  const handleDelete = async () => \x7b\n" ++
  "    await fetch(" ++ apos ++ options.endpointPath ++ "/" ++ apos ++
    " + params.id, \x7b method: " ++ apos ++ "DELETE" ++ apos ++ " \x7d);\n" ++
  "    router.push(" ++ apos ++ options.routePath ++ apos ++ ");\n" ++
  "  \x7d;\n\n" ++
  "  return (\n" ++
  "    <div className=\"generated-page\">\n" ++
  "      <nav className=\"breadcrumb\">\n" ++
  "        <Link href=\"" ++ options.routePath ++ "\">戻る</Link>\n" ++
  "      </nav>\n" ++
  "      \x7bloading && <p>読み込み中...</p>\x7d\n" ++
  "      \x7berror && <p>\x7berror\x7d</p>\x7d\n" ++
  "      \x7brecord && (\n" ++
  "        <div>\n" ++
  "          <pre>\x7bJSON.stringify(record, null, 2)\x7d</pre>\n" ++
  "          <button type=\"button\" onClick=\x7bhandleDelete\x7d>削除</button>\n" ++
  "        </div>\n" ++
  "      )\x7d\n" ++
  "    </div>\n" ++
  "  );\n" ++
  "\x7d\n"

/-- Persistent state touched by the template synthesizer and its route
cascade: the template manifest, the directories created so far, and the
generated files of the application tree. -/
structure TemplateState where
  templates : List (String × TemplateMeta)
  dirs : List String := []
  files : List (String × String) := []
deriving DecidableEq

/-- The `writeTextFile`: `ensureDir(path.dirname(filePath))` then write. -/
def writeTextFileT (filePath content : String) (s : TemplateState) : TemplateState :=
  { s with
    dirs := s.dirs ++ [jsDirname filePath],
    files := jsSet filePath content s.files }

/-- The `ensureRoute`: make the directory of the route exist. -/
def ensureRoute (routePath : String) (s : TemplateState) : TemplateState :=
  { s with dirs := s.dirs ++ [routeDir (normalizeRoutePath routePath)] }

/-- The `ensureDynamicRoute`: create the `[id]` sub-directory and write the
detail page, with the `options` route path replaced by the normalized one. -/
def ensureDynamicRoute (routePath : String) (options : DynRouteOptions)
    (s : TemplateState) : TemplateState :=
  let normalized := normalizeRoutePath routePath
  let dir := routeDir normalized ++ "/[id]"
  let s := { s with dirs := s.dirs ++ [dir] }
  writeTextFileT (dir ++ "/page.tsx")
    (dynamicPageContent { options with routePath := normalized }) s

/-- A table component flagged `dynamicRouting`. -/
def isDynamicTable : Component → Bool
  | .table _ _ _ _ _ dynamicRouting => dynamicRouting.getD false
  | _ => false

/-- The `ensureDynamicRoute` options derived from one dynamically-routed
table component (`none` for every other component). -/
def dynTableOptions (routePath : String) : Component → Option DynRouteOptions
  | .table _ _ _ _ dataSource dynamicRouting =>
    if dynamicRouting.getD false then
      some ⟨routePath, dataSource.endpointPath, dataSource.primaryKey⟩
    else none
  | _ => none

/-- The `ensureDynamicPages`: one `ensureDynamicRoute` per dynamically-routed
table component (the batched calls are modelled sequentially; they all
target the route of the template itself). -/
def ensureDynamicPages (payload : TemplatePayload) (s : TemplateState) : TemplateState :=
  (payload.components.filterMap (dynTableOptions payload.routePath)).foldl
    (fun st opts => ensureDynamicRoute payload.routePath opts st) s

/-- The `upsertTemplate`: manifest entry, route cascade, dynamic sub-routes,
manifest write, template artifact, registry regeneration. -/
def upsertTemplate (payload : TemplatePayload) (s : TemplateState) :
    TemplateState × OpResult :=
  let manifest := jsSet payload.templateId
    ⟨payload.templateId, payload.routePath⟩ s.templates
  let s := ensureRoute payload.routePath s
  let s := ensureDynamicPages payload s
  let s := { s with templates := manifest }
  let filePath := templateFilePath payload.templateId
  let s := { s with dirs := s.dirs ++ [jsDirname filePath] }
  let s := writeTextFileT filePath (buildTemplateFile payload) s
  let s := writeTextFileT registryPath (registryContent (valuesOf manifest)) s
  (s, ⟨true, "Template " ++ payload.templateId ++ " generated."⟩)

/-! ## Layout synthesizer (`src/lib/codegen/layout.ts`) -/

/-- The `LayoutPayload` (`areas` is a JS record: insertion-ordered pairs). -/
structure LayoutPayload where
  layoutId : String
  templateId : String
  routeId : String
  areas : List (String × List String) := []
deriving DecidableEq

/-- The `JSON.stringify(entry)` for one layout entry (keys in schema-shape
order: `layoutId`, `templateId`, `routeId`, `areas`). -/
def layoutEntryJson (e : LayoutPayload) : String :=
  renderJxC (.obj [("layoutId", .str e.layoutId), ("templateId", .str e.templateId),
    ("routeId", .str e.routeId),
    ("areas", .obj (e.areas.map (fun a => (a.1, Jx.arr (a.2.map Jx.str)))))])

/-- Shared head of the layouts artifact. -/
def layoutsFileHeader : String :=
  "export type LayoutEntry = \x7b\n  layoutId: string;\n  templateId: string;\n  routeId: string;\n  areas: Record<string, string[]>;\n\x7d;\n\ntype LayoutManifest = Record<string, LayoutEntry>;\n\n"

/-- Shared tail of the layouts artifact. -/
def layoutsFileFooter : String :=
  "\n\nexport function getLayoutForTemplate(templateId: string): LayoutEntry | undefined \x7b\n  return manifest[templateId];\n\x7d\n"

/-- The `syncLayoutsTs` content: the lookup artifact, keyed by `templateId`
(an empty manifest still regenerates an always-miss lookup). -/
def layoutsFileContent (entries : List LayoutPayload) : String :=
  if entries.length = 0 then
    layoutsFileHeader ++ "const manifest: LayoutManifest = \x7b\x7d;" ++ layoutsFileFooter
  else
    let rows := String.intercalate ",\n" (entries.map (fun e =>
      "  " ++ apos ++ e.templateId ++ apos ++ ": " ++ layoutEntryJson e))
    layoutsFileHeader ++ "const manifest: LayoutManifest = \x7b\n" ++ rows ++ "\n\x7d;" ++
      layoutsFileFooter

/-- Lookup semantics of the emitted layouts artifact: the object literal
binds `entry.templateId` per row in order (a later duplicate key wins, as
in JS), and `getLayoutForTemplate` reads that object. -/
def getLayoutForTemplate (entries : List LayoutPayload) (templateId : String) :
    Option LayoutPayload :=
  entries.foldl (fun acc e => if e.templateId = templateId then some e else acc) none

/-- Persistent state touched by the layout synthesizer: the layout manifest
(keyed by the key `upsertLayout` uses) and the regenerated lookup
artifact. -/
structure LayoutState where
  layouts : List (String × LayoutPayload)
  layoutsTs : String := ""
deriving DecidableEq

/-- The `syncLayoutsTs`. -/
def syncLayoutsTs (s : LayoutState) : LayoutState :=
  { s with layoutsTs := layoutsFileContent (valuesOf s.layouts) }

/-- The `upsertLayout`. -/
def upsertLayout (payload : LayoutPayload) (s : LayoutState) :
    LayoutState × OpResult :=
  let s := { s with layouts := jsSet payload.layoutId payload s.layouts }
  let s := syncLayoutsTs s
  (s, ⟨true, "Layout " ++ payload.layoutId ++ " applied."⟩)

/-- The `deleteLayout`. -/
def deleteLayout (layoutId : String) (s : LayoutState) : LayoutState × OpResult :=
  let s := { s with layouts := jsDel layoutId s.layouts }
  let s := syncLayoutsTs s
  (s, ⟨true, "Layout " ++ layoutId ++ " removed."⟩)

/-! ## Concrete fixtures used by witnesses and counterexamples -/

/-- The `startsWith(/[0-9]/)`: does the string start with a digit? -/
def startsWithDigit (s : String) : Bool :=
  match s.data with
  | [] => false
  | c :: _ => c.isDigit

/-- A delete endpoint whose `where` list is empty. -/
def delNoWhereCfg : EndpointConfig :=
  { method := .DELETE, path := "/todos", table := "todos", action := .delete,
    whereConds := some [] }

/-- A select endpoint with one query-sourced `where` condition. -/
def getTodosCfg : EndpointConfig :=
  { method := .GET, path := "/todos", table := "todos", action := .select,
    whereConds := some [⟨"id", .opEq, "query.id"⟩] }

/-- An insert endpoint with one body-sourced field mapping. -/
def postTodosCfg : EndpointConfig :=
  { method := .POST, path := "/todos", table := "todos", action := .insert,
    fieldMapping := some [("title", "body.title")] }

/-- A two-method group at `/api/todos`. -/
def todosGroup : MethodGroup := [(.GET, getTodosCfg), (.POST, postTodosCfg)]

/-- Endpoint state holding the two-method group and its artifact. -/
def todosEndpointState : EndpointState :=
  ⟨[("/api/todos", todosGroup)],
   [("src/app/api/todos/route.ts", buildRouteFile "/api/todos" todosGroup)]⟩

/-- The `todos` table of the concrete scenario of the spec. -/
def todosPayload : TablePayload :=
  { tableName := "todos",
    columns := [
      { name := "id", type := .integer, primaryKey := true, autoIncrement := true },
      { name := "title", type := .text, notNull := true }] }

/-- Table state holding a `todos` schema artifact and an index. -/
def todosTableState : TableState :=
  { schemaFiles := [("todos.ts", "export const todos = 1;\n"), ("index.ts", "old")] }

/-- A template with one dynamically-routed table component. -/
def todoTemplate : TemplatePayload :=
  { templateId := "todo-list", routePath := "/todos",
    components := [.table "t1" none "todos" none ⟨"/api/todos", "id"⟩ (some true)] }

/-- A layout whose `layoutId` and `templateId` differ. -/
def layoutAB : LayoutPayload :=
  { layoutId := "layout-a", templateId := "template-b", routeId := "route-1", areas := [] }

/-- A trivial comparator interpretation (everything matches). -/
def allTrueSem : CompareSem := fun _ _ _ _ => true

/-- A request bag with no body, no query, no path params. -/
def emptyBag : SourceBag := ⟨.undefined, [], []⟩

/-- Two rows of a `todos` table. -/
def todosRows : List Row :=
  [[("id", .int 1), ("title", .str "a")], [("id", .int 2), ("title", .str "b")]]

/-! ## Infrastructure lemmas -/

theorem jsGet_jsSet_self {κ α : Type} [DecidableEq κ] (k : κ) (v : α)
    (xs : List (κ × α)) : jsGet k (jsSet k v xs) = some v := by
  induction xs with
  | nil => simp [jsGet, jsSet]
  | cons hd tl ih =>
    obtain ⟨k', v'⟩ := hd
    by_cases h : k' = k
    · simp [jsGet, jsSet, h]
    · simp [jsGet, jsSet, h, ih]

theorem jsGet_jsSet_ne {κ α : Type} [DecidableEq κ] {k k' : κ} (v : α)
    (xs : List (κ × α)) (h : k' ≠ k) :
    jsGet k (jsSet k' v xs) = jsGet k xs := by
  induction xs with
  | nil => simp [jsGet, jsSet, h]
  | cons hd tl ih =>
    obtain ⟨k'', v''⟩ := hd
    by_cases h2 : k'' = k'
    · subst h2
      have hk : ¬ k'' = k := fun hc => h (hc ▸ rfl)
      simp [jsGet, jsSet, hk]
    · have hke : ¬ k = k' := fun hc => h hc.symm
      by_cases h3 : k'' = k <;> simp [jsGet, jsSet, h2, h3, hke, ih]

theorem jsGet_jsDel_self {κ α : Type} [DecidableEq κ] (k : κ)
    (xs : List (κ × α)) : jsGet k (jsDel k xs) = none := by
  induction xs with
  | nil => simp [jsGet, jsDel]
  | cons hd tl ih =>
    obtain ⟨k', v'⟩ := hd
    by_cases h : k' = k <;> simp [jsGet, jsDel, h, ih]

theorem jsGet_jsDel_ne {κ α : Type} [DecidableEq κ] {k k' : κ}
    (xs : List (κ × α)) (h : k' ≠ k) :
    jsGet k (jsDel k' xs) = jsGet k xs := by
  induction xs with
  | nil => simp [jsGet, jsDel]
  | cons hd tl ih =>
    obtain ⟨k'', v''⟩ := hd
    by_cases h2 : k'' = k'
    · subst h2
      have hk : ¬ k'' = k := fun hc => h (hc ▸ rfl)
      simp [jsGet, jsDel, hk, ih]
    · have hke : ¬ k = k' := fun hc => h hc.symm
      by_cases h3 : k'' = k <;> simp [jsGet, jsDel, h2, h3, hke, ih]

theorem isSome_jsGet_jsSet {κ α : Type} [DecidableEq κ] (k k' : κ) (v : α)
    (xs : List (κ × α)) (h : (jsGet k xs).isSome) :
    (jsGet k (jsSet k' v xs)).isSome := by
  by_cases hk : k' = k
  · subst hk
    simp [jsGet_jsSet_self]
  · rwa [jsGet_jsSet_ne v xs hk]

theorem keysOf_jsDel {κ α : Type} [DecidableEq κ] (k : κ) (xs : List (κ × α)) :
    keysOf (jsDel k xs) = (keysOf xs).filter (fun k' => k' ≠ k) := by
  induction xs with
  | nil => simp [keysOf, jsDel]
  | cons hd tl ih =>
    obtain ⟨k', v'⟩ := hd
    by_cases h : k' = k <;>
      simp [keysOf, jsDel, List.filter_cons, h, ih]

theorem not_mem_keysOf_jsDel {κ α : Type} [DecidableEq κ] (k : κ)
    (xs : List (κ × α)) : k ∉ keysOf (jsDel k xs) := by
  rw [keysOf_jsDel]
  intro hmem
  have := List.of_mem_filter hmem
  simp at this

theorem mem_keysOf_jsSet {κ α : Type} [DecidableEq κ] {k k' : κ} {v : α}
    {xs : List (κ × α)} (h : k ∈ keysOf (jsSet k' v xs)) :
    k = k' ∨ k ∈ keysOf xs := by
  induction xs with
  | nil => simp [keysOf, jsSet] at h; exact Or.inl h
  | cons hd tl ih =>
    obtain ⟨k'', v''⟩ := hd
    by_cases h2 : k'' = k'
    · subst h2
      simp only [jsSet, if_pos rfl, keysOf, List.mem_cons] at h
      rcases h with h | h
      · exact Or.inl h
      · exact Or.inr (by simp [keysOf, h])
    · simp only [jsSet, if_neg h2, keysOf, List.mem_cons] at h
      rcases h with h | h
      · exact Or.inr (by simp [keysOf, h])
      · rcases ih h with h3 | h3
        · exact Or.inl h3
        · exact Or.inr (by simp [keysOf, h3])

theorem keysOf_jsSet_of_mem {κ α : Type} [DecidableEq κ] {k : κ} (v : α)
    {xs : List (κ × α)} (h : k ∈ keysOf xs) :
    keysOf (jsSet k v xs) = keysOf xs := by
  induction xs with
  | nil => simp [keysOf] at h
  | cons hd tl ih =>
    obtain ⟨k', v'⟩ := hd
    by_cases h2 : k' = k
    · simp [keysOf, jsSet, h2]
    · simp only [keysOf, List.mem_cons] at h
      rcases h with h | h
      · exact absurd h.symm h2
      · simp [keysOf, jsSet, h2, ih h]

theorem keysOf_jsSet_of_not_mem {κ α : Type} [DecidableEq κ] {k : κ} (v : α)
    {xs : List (κ × α)} (h : k ∉ keysOf xs) :
    keysOf (jsSet k v xs) = keysOf xs ++ [k] := by
  induction xs with
  | nil => simp [keysOf, jsSet]
  | cons hd tl ih =>
    obtain ⟨k', v'⟩ := hd
    simp only [keysOf, List.mem_cons] at h
    push_neg at h
    have hne : ¬ k' = k := fun hc => h.1 hc.symm
    simp [keysOf, jsSet, hne, ih h.2]

theorem valuesOf_jsSet_of_not_mem {κ α : Type} [DecidableEq κ] {k : κ} (v : α)
    {xs : List (κ × α)} (h : k ∉ keysOf xs) :
    valuesOf (jsSet k v xs) = valuesOf xs ++ [v] := by
  induction xs with
  | nil => simp [valuesOf, jsSet]
  | cons hd tl ih =>
    obtain ⟨k', v'⟩ := hd
    simp only [keysOf, List.mem_cons] at h
    push_neg at h
    have hne : ¬ k' = k := fun hc => h.1 hc.symm
    simp [valuesOf, jsSet, hne, ih h.2]

theorem mem_insertStr (x y : String) (l : List String) :
    y ∈ insertStr x l ↔ y = x ∨ y ∈ l := by
  induction l with
  | nil => simp [insertStr]
  | cons a as ih =>
    simp only [insertStr]
    by_cases h : strLeB x a
    · simp only [h, if_true, List.mem_cons]
    · simp only [h, Bool.false_eq_true, if_false, List.mem_cons, ih]
      tauto

theorem mem_sortStrings (y : String) (l : List String) :
    y ∈ sortStrings l ↔ y ∈ l := by
  induction l with
  | nil => simp [sortStrings]
  | cons a as ih => simp [sortStrings, mem_insertStr, ih]

theorem string_eq_of_data {s t : String} (h : s.data = t.data) : s = t := by
  cases s
  cases t
  exact congrArg String.mk h

theorem string_append_ne_empty_of_ne {s : String} (t : String)
    (h : s.data ≠ []) : s ++ t ≠ "" := by
  intro heq
  apply h
  have h2 := congrArg String.data heq
  rw [String.data_append] at h2
  exact (List.append_eq_nil.mp h2).1

theorem isPrefixOf_self_append {l m : List Char} :
    l.isPrefixOf (l ++ m) = true := by
  induction l with
  | nil => simp [List.isPrefixOf]
  | cons a as ih => simp [List.isPrefixOf, ih]

theorem jsStartsWith_append_self (pre s : String) :
    jsStartsWith (pre ++ s) pre = true := by
  simp [jsStartsWith, String.data_append, isPrefixOf_self_append]

theorem append_ts_inj {a b : String} (h : a ++ ".ts" = b ++ ".ts") : a = b := by
  apply string_eq_of_data
  have h2 := congrArg String.data h
  rw [String.data_append, String.data_append] at h2
  exact List.append_cancel_right h2

theorem mem_keysOf_jsSet_self {κ α : Type} [DecidableEq κ] (k : κ) (v : α)
    (xs : List (κ × α)) : k ∈ keysOf (jsSet k v xs) := by
  induction xs with
  | nil => simp [jsSet, keysOf]
  | cons hd tl ih =>
    obtain ⟨k', v'⟩ := hd
    by_cases h : k' = k <;> simp [jsSet, keysOf, h, ih]

theorem upsertTable_schemaFiles (p : TablePayload) (s : TableState) :
    ((upsertTable p s).1).schemaFiles =
      jsSet "index.ts"
        (schemaIndexContent (indexSourceFiles
          { s with schemaFiles :=
              jsSet (p.tableName ++ ".ts") (generateTableContent p) s.schemaFiles }))
        (jsSet (p.tableName ++ ".ts") (generateTableContent p) s.schemaFiles) := by
  simp [upsertTable, updateSchemaIndex, runDrizzle]

theorem upsertTable_arch (p : TablePayload) (s : TableState) :
    ((upsertTable p s).1).archiveDirExists = s.archiveDirExists := by
  simp [upsertTable, updateSchemaIndex, runDrizzle]

theorem indexSourceFiles_congr {s t : TableState}
    (hk : keysOf s.schemaFiles = keysOf t.schemaFiles)
    (ha : s.archiveDirExists = t.archiveDirExists) :
    indexSourceFiles s = indexSourceFiles t := by
  unfold indexSourceFiles listSchemaDir
  rw [hk, ha]

theorem filter_indexPred_keys_jsSet_index (c : String) (xs : List (String × String)) :
    (keysOf (jsSet "index.ts" c xs)).filter indexPred =
      (keysOf xs).filter indexPred := by
  by_cases hmem : ("index.ts" : String) ∈ keysOf xs
  · rw [keysOf_jsSet_of_mem _ hmem]
  · rw [keysOf_jsSet_of_not_mem _ hmem, List.filter_append]
    have hpred : indexPred "index.ts" = false := by decide
    simp [List.filter_cons, hpred]

theorem indexSourceFiles_set_index {s t : TableState} (c : String)
    (hk : keysOf s.schemaFiles = keysOf (jsSet "index.ts" c t.schemaFiles))
    (ha : s.archiveDirExists = t.archiveDirExists) :
    indexSourceFiles s = indexSourceFiles t := by
  unfold indexSourceFiles listSchemaDir
  rw [hk, ha, List.filter_append, List.filter_append,
    filter_indexPred_keys_jsSet_index]

/-! ## C2 — drop-statement identifier vs. synthesis identifier -/

/-- C2 (counterexample): for the table name `1a` the identifier interpolated
into the `DROP TABLE IF EXISTS` statement is `1a`, while the synthesis
sanitizer (replace-then-digit-prefix, `toIdentifier`) produces `_1a`; the
two are not equal, so the claim fails as stated. -/
theorem claim_C2_counterexample :
    sanitizeTableIdentifier "1a" ≠ toIdentifier "1a" ∧
    dropTableStatement "1a" = "DROP TABLE IF EXISTS 1a;" ∧
    toIdentifier "1a" = "_1a" := by
  refine ⟨by decide, by decide, by decide⟩

/-- C2 (amended): the identifier interpolated into the `DROP TABLE IF
EXISTS` statement is the replace-only sanitization (every character outside
`[a-zA-Z0-9_]` becomes `_`), without the digit-prefix step; whenever the
sanitized name does not start with a digit this coincides with the
synthesis identifier `toIdentifier`. -/
theorem claim_C2_amended (tableName : String)
    (h : startsWithDigit (sanitizeTableIdentifier tableName) = false) :
    dropTableStatement tableName =
      "DROP TABLE IF EXISTS " ++ toIdentifier tableName ++ ";" ∧
    sanitizeTableIdentifier tableName = toIdentifier tableName := by
  have hid : toIdentifier tableName = sanitizeTableIdentifier tableName := by
    unfold toIdentifier sanitizeTableIdentifier prefixDigit
    unfold startsWithDigit sanitizeTableIdentifier at h
    cases hd : (replaceNonWord tableName).data with
    | nil =>
      simp only [hd]
    | cons c rest =>
      rw [hd] at h
      have h' : c.isDigit = false := h
      simp only [hd, h', Bool.false_eq_true, if_false]
  refine ⟨?_, hid.symm⟩
  rw [dropTableStatement, hid]

/-- C2 (witness): concrete instance at `todos`. -/
theorem claim_C2_witness :
    startsWithDigit (sanitizeTableIdentifier "todos") = false ∧
    (dropTableStatement "todos" =
      "DROP TABLE IF EXISTS " ++ toIdentifier "todos" ++ ";" ∧
     sanitizeTableIdentifier "todos" = toIdentifier "todos") :=
  ⟨by decide, claim_C2_amended "todos" (by decide)⟩

/-! ## C4 — normalized route keys and trailing slashes -/

/-- C4 (code bug): `normalizeRoutePath` is documented/specified to produce
keys with a leading slash and no trailing slash, but for an input without
a leading slash the early-return branch skips the trailing-slash strip:
`todos/` normalizes to `/todos/`, which still ends with a slash and is not
the root path. -/
theorem claim_C4_bug :
    normalizeRoutePath "todos/" = "/todos/" ∧
    jsEndsWith (normalizeRoutePath "todos/") "/" = true ∧
    normalizeRoutePath "todos/" ≠ "/" ∧
    normalizeRoutePath "/todos/" = "/todos" := by
  refine ⟨by decide, by decide, by decide, by decide⟩

/-! ## C9 — bracketed segments and breadcrumb counts -/

theorem jsStartsWith_bracketize (s : String) :
    jsStartsWith (bracketizeSeg s) "[" = true := by
  simp [bracketizeSeg, jsStartsWith, String.data_append, List.isPrefixOf]

theorem crumbsFrom_length (acc : String) (l : List String) :
    (crumbsFrom acc l).length = l.length := by
  induction l generalizing acc with
  | nil => rfl
  | cons a as ih => simp [crumbsFrom, ih]

theorem filter_bracket_map (l : List String)
    (h : ∀ seg ∈ l, jsStartsWith seg "[" = false) :
    (l.map (fun s => if jsStartsWith s ":" then bracketizeSeg s else s)).filter
        (fun s => jsStartsWith s "[") =
      (l.filter (fun s => jsStartsWith s ":")).map bracketizeSeg := by
  induction l with
  | nil => simp
  | cons a as ih =>
    have ha := h a (List.mem_cons_self a as)
    have htl : ∀ seg ∈ as, jsStartsWith seg "[" = false :=
      fun seg hs => h seg (List.mem_cons_of_mem a hs)
    by_cases hc : jsStartsWith a ":" = true
    · simp [List.filter_cons, hc, jsStartsWith_bracketize, ih htl]
    · simp [List.filter_cons, hc, ha, ih htl]

/-- C9 (counterexample): the path `/[x]` contains zero `:param` segments,
yet the synthesized directory contains one bracketed segment, so the
claimed "exactly N bracketed segments" fails as stated for paths that
already carry bracketed text. -/
theorem claim_C9_counterexample :
    pathSegments "/[x]" = ["[x]"] ∧
    ((jsSplit '/' "/[x]").filter (fun s => s ≠ "")).countP
        (fun s => jsStartsWith s ":") = 0 ∧
    (pathSegments "/[x]").countP (fun s => jsStartsWith s "[") = 1 := by
  refine ⟨by decide, by decide, by decide⟩

/-- C9 (amended): for every route path none of whose non-empty segments
already starts with `[`, the bracketed segments of the synthesized
directory are exactly the `:param` segments, bracketized, in order (hence
there are exactly N of them, in the same order); and — unconditionally in
the code, restated here — the number of breadcrumb entries equals the
number of non-empty path segments. -/
theorem claim_C9_amended (routePath : String)
    (h : ∀ seg ∈ (jsSplit '/' routePath).filter (fun s => s ≠ ""),
      jsStartsWith seg "[" = false) :
    (pathSegments routePath).filter (fun s => jsStartsWith s "[") =
      (((jsSplit '/' routePath).filter (fun s => s ≠ "")).filter
        (fun s => jsStartsWith s ":")).map bracketizeSeg ∧
    (breadcrumbs routePath).length =
      ((jsSplit '/' routePath).filter (fun s => s ≠ "")).length := by
  constructor
  · exact filter_bracket_map _ h
  · exact crumbsFrom_length "" _

/-! ## C3 — layout manifest keying and lookup regeneration -/

/-- C3 (counterexample): upserting a layout whose `layoutId` is `layout-a`
and whose `templateId` is `template-b` into an empty manifest stores the
payload under `layout-a`, not under `template-b` — the persisted layout
manifest is keyed by `layoutId`, so the claimed "the manifest is keyed by
templateId" fails as stated. -/
theorem claim_C3_counterexample :
    jsGet "template-b" ((upsertLayout layoutAB ⟨[], ""⟩).1).layouts ≠ some layoutAB ∧
    jsGet "layout-a" ((upsertLayout layoutAB ⟨[], ""⟩).1).layouts = some layoutAB := by
  refine ⟨by decide, by decide⟩

/-- C3 (amended): after a layout upsert the persisted manifest maps the
`layoutId` of the payload (not its `templateId`) to the payload; the lookup
artifact is regenerated from the manifest values and is keyed by
`templateId`, and when the `layoutId` is new to the manifest the
regenerated lookup resolves the `templateId` of the payload to the payload. -/
theorem claim_C3_amended (p : LayoutPayload) (s : LayoutState) :
    jsGet p.layoutId ((upsertLayout p s).1).layouts = some p ∧
    ((upsertLayout p s).1).layoutsTs =
      layoutsFileContent (valuesOf ((upsertLayout p s).1).layouts) ∧
    (p.layoutId ∉ keysOf s.layouts →
      getLayoutForTemplate (valuesOf ((upsertLayout p s).1).layouts) p.templateId =
        some p) := by
  refine ⟨?_, ?_, ?_⟩
  · simp [upsertLayout, syncLayoutsTs, jsGet_jsSet_self]
  · simp [upsertLayout, syncLayoutsTs]
  · intro hnew
    have hv : valuesOf ((upsertLayout p s).1).layouts = valuesOf s.layouts ++ [p] := by
      simp [upsertLayout, syncLayoutsTs]
      exact valuesOf_jsSet_of_not_mem p hnew
    rw [hv]
    unfold getLayoutForTemplate
    rw [List.foldl_append]
    simp

/-- C3 (witness): concrete instance on the empty layout manifest. -/
theorem claim_C3_witness :
    ("layout-a" ∉ keysOf (([] : List (String × LayoutPayload)))) ∧
    (jsGet "layout-a" ((upsertLayout layoutAB ⟨[], ""⟩).1).layouts = some layoutAB ∧
     getLayoutForTemplate (valuesOf ((upsertLayout layoutAB ⟨[], ""⟩).1).layouts)
       "template-b" = some layoutAB) :=
  ⟨by decide,
   (claim_C3_amended layoutAB ⟨[], ""⟩).1,
   (claim_C3_amended layoutAB ⟨[], ""⟩).2.2 (by decide)⟩

/-! ## C1 — delete endpoints without a where clause -/

/-- C1 (counterexample): upserting a delete endpoint with an empty `where`
list from the empty state is *not* reported as a precondition error and
does *not* abort before any write: the operation returns success (with the
ordinary "generated" message) and the endpoint manifest gains the new
entry, so the claim fails as stated. -/
theorem claim_C1_counterexample :
    (upsertEndpoint delNoWhereCfg ⟨[], []⟩).2.ok = true ∧
    (upsertEndpoint delNoWhereCfg ⟨[], []⟩).2.message =
      "Endpoint DELETE /api/todos generated." ∧
    jsGet "/api/todos" ((upsertEndpoint delNoWhereCfg ⟨[], []⟩).1).manifest =
      some [(.DELETE, delNoWhereCfg)] := by
  refine ⟨by decide, by decide, by decide⟩

/-- C1 (amended): the missing-`where` precondition on delete endpoints is
not enforced at upsert time — the upsert succeeds and writes the manifest
entry — and is instead enforced inside the generated handler: the emitted
where-assembly for an empty (or absent) `where` list is the constant
`whereClause = undefined` line, and at request time the generated delete
handler reports `Delete endpoint requires a where clause.` and deletes
nothing, for any comparator interpretation, request bag, and table
contents. -/
theorem claim_C1_amended (p : EndpointConfig) (s : EndpointState)
    (sem : CompareSem) (bag : SourceBag) (rows : List Row)
    (ha : p.action = .delete) (hw : p.whereConds.getD [] = []) :
    (upsertEndpoint p s).2.ok = true ∧
    jsGet p.method
        ((jsGet (normalizeApiPath p.path) ((upsertEndpoint p s).1).manifest).getD []) =
      some p ∧
    (∀ aliasName, buildWhereClauses p aliasName = "  const whereClause = undefined;\n") ∧
    runHandler sem p bag rows =
      ⟨.failure "Delete endpoint requires a where clause.", rows⟩ := by
  refine ⟨rfl, ?_, ?_, ?_⟩
  · simp only [upsertEndpoint]
    rw [jsGet_jsSet_self]
    simp only [Option.getD_some]
    rw [jsGet_jsSet_self]
  · intro aliasName
    simp [buildWhereClauses, hw]
  · simp [runHandler, buildFilters, hw, whereClauseSem, ha]

/-- C1 (witness): concrete instance of the amended claim for the
no-`where` delete endpoint at `/todos`. -/
theorem claim_C1_witness :
    (upsertEndpoint delNoWhereCfg ⟨[], []⟩).2.ok = true ∧
    jsGet Method.DELETE
        ((jsGet (normalizeApiPath delNoWhereCfg.path)
          ((upsertEndpoint delNoWhereCfg ⟨[], []⟩).1).manifest).getD []) =
      some delNoWhereCfg ∧
    buildWhereClauses delNoWhereCfg "delete" = "  const whereClause = undefined;\n" ∧
    runHandler allTrueSem delNoWhereCfg emptyBag todosRows =
      ⟨.failure "Delete endpoint requires a where clause.", todosRows⟩ :=
  ⟨(claim_C1_amended delNoWhereCfg ⟨[], []⟩ allTrueSem emptyBag todosRows rfl rfl).1,
   (claim_C1_amended delNoWhereCfg ⟨[], []⟩ allTrueSem emptyBag todosRows rfl rfl).2.1,
   (claim_C1_amended delNoWhereCfg ⟨[], []⟩ allTrueSem emptyBag todosRows rfl rfl).2.2.1 "delete",
   (claim_C1_amended delNoWhereCfg ⟨[], []⟩ allTrueSem emptyBag todosRows rfl rfl).2.2.2⟩

/-! ## C10 — nullish where-condition sources in generated handlers -/

theorem buildFilters_nil_of_nullish (bag : SourceBag) (conds : List WhereCond)
    (h : ∀ c ∈ conds, (readFromSource c.source bag).isNullish = true) :
    buildFilters conds bag = [] := by
  induction conds with
  | nil => rfl
  | cons c cs ih =>
    have hc := h c (List.mem_cons_self c cs)
    have htl : ∀ x ∈ cs, (readFromSource x.source bag).isNullish = true :=
      fun x hx => h x (List.mem_cons_of_mem c hx)
    simp only [buildFilters, List.filterMap_cons, hc, if_true]
    simpa [buildFilters] using ih htl

/-- C10: a where condition whose resolved source value is `undefined` or
`null` is skipped when building the filter list; consequently, when every
where condition of a handler resolves to a nullish value, a `select`
handler returns all rows of the table unchanged, and a `delete` handler
fails with the missing-where error and deletes nothing — for any
interpretation of the storage comparators. -/
theorem claim_C10 (sem : CompareSem) (config : EndpointConfig) (bag : SourceBag)
    (rows : List Row)
    (h : ∀ c ∈ config.whereConds.getD [],
      (readFromSource c.source bag).isNullish = true) :
    (∀ (c : WhereCond) (cs : List WhereCond),
      (readFromSource c.source bag).isNullish = true →
        buildFilters (c :: cs) bag = buildFilters cs bag) ∧
    (config.action = .select →
      runHandler sem config bag rows = ⟨.success rows, rows⟩) ∧
    (config.action = .delete →
      runHandler sem config bag rows =
        ⟨.failure "Delete endpoint requires a where clause.", rows⟩) := by
  have hnil := buildFilters_nil_of_nullish bag _ h
  refine ⟨?_, ?_, ?_⟩
  · intro c cs hc
    simp [buildFilters, List.filterMap_cons, hc]
  · intro hsel
    simp [runHandler, hnil, whereClauseSem, hsel]
  · intro hdel
    simp [runHandler, hnil, whereClauseSem, hdel]

/-- C10 (witness): a select and the skip property at a concrete handler
whose single condition reads an absent query parameter. -/
theorem claim_C10_witness :
    (∀ c ∈ getTodosCfg.whereConds.getD [],
      (readFromSource c.source emptyBag).isNullish = true) ∧
    runHandler allTrueSem getTodosCfg emptyBag todosRows =
      ⟨.success todosRows, todosRows⟩ :=
  ⟨by decide,
   (claim_C10 allTrueSem getTodosCfg emptyBag todosRows (by decide)).2.1 rfl⟩

/-! ## C8 — schema artifact idempotence -/

/-- C8: upserting a table twice with the identical payload leaves a
byte-identical schema artifact (whatever state the second upsert starts
from, the artifact file is unchanged by it), and — away from the
pathological table name `index`, whose artifact file is the schema index
itself — the artifact content is `generateTableContent payload`, a
function of the payload alone. -/
theorem claim_C8 (p : TablePayload) (s : TableState) :
    jsGet (p.tableName ++ ".ts")
        ((upsertTable p ((upsertTable p s).1)).1).schemaFiles =
      jsGet (p.tableName ++ ".ts") ((upsertTable p s).1).schemaFiles ∧
    (p.tableName ≠ "index" →
      jsGet (p.tableName ++ ".ts") ((upsertTable p s).1).schemaFiles =
        some (generateTableContent p)) := by
  constructor
  · by_cases hix : p.tableName ++ ".ts" = "index.ts"
    · rw [upsertTable_schemaFiles, upsertTable_schemaFiles, hix,
        jsGet_jsSet_self, jsGet_jsSet_self]
      congr 2
      apply indexSourceFiles_congr
      · dsimp only
        rw [keysOf_jsSet_of_mem _ (mem_keysOf_jsSet_self _ _ _),
          keysOf_jsSet_of_mem _ (mem_keysOf_jsSet_self _ _ _)]
      · dsimp only
        exact upsertTable_arch p s
    · have hixne : ("index.ts" : String) ≠ p.tableName ++ ".ts" :=
        fun hc => hix hc.symm
      rw [upsertTable_schemaFiles, upsertTable_schemaFiles,
        jsGet_jsSet_ne _ _ hixne, jsGet_jsSet_ne _ _ hixne,
        jsGet_jsSet_self, jsGet_jsSet_self]
  · intro hne
    have hixne : ("index.ts" : String) ≠ p.tableName ++ ".ts" := by
      intro hc
      have hlit : ("index.ts" : String) = "index" ++ ".ts" := by decide
      rw [hlit] at hc
      exact hne (append_ts_inj hc.symm)
    rw [upsertTable_schemaFiles, jsGet_jsSet_ne _ _ hixne, jsGet_jsSet_self]

/-- C8 (witness): concrete instance on the `todos` payload from the empty
schema directory. -/
theorem claim_C8_witness :
    ("todos" : String) ≠ "index" ∧
    jsGet ("todos" ++ ".ts")
        ((upsertTable todosPayload ((upsertTable todosPayload ⟨[], [], false, [], 0⟩).1)).1).schemaFiles =
      jsGet ("todos" ++ ".ts") ((upsertTable todosPayload ⟨[], [], false, [], 0⟩).1).schemaFiles ∧
    jsGet ("todos" ++ ".ts") ((upsertTable todosPayload ⟨[], [], false, [], 0⟩).1).schemaFiles =
      some (generateTableContent todosPayload) :=
  ⟨by decide,
   (claim_C8 todosPayload ⟨[], [], false, [], 0⟩).1,
   (claim_C8 todosPayload ⟨[], [], false, [], 0⟩).2 (by decide)⟩

/-! ## C7 — table deletion archives the schema artifact -/

/-- C7: when the schema artifact of a table exists, deleting the table never
removes the artifact from disk outright: afterwards a timestamp-tagged
copy of its content sits under the archive location, the file of the table is
no longer among the files whose re-exports make up the regenerated schema
index, and the index on disk is exactly the regeneration over those
remaining files. -/
theorem claim_C7 (tableName : String) (now : Nat) (s : TableState)
    (content : String)
    (h : jsGet (tableName ++ ".ts") s.schemaFiles = some content) :
    jsGet (tableName ++ "-" ++ toString now ++ ".ts")
        ((deleteTable tableName now s).1).archiveFiles = some content ∧
    (tableName ++ ".ts") ∉ indexSourceFiles ((deleteTable tableName now s).1) ∧
    jsGet "index.ts" ((deleteTable tableName now s).1).schemaFiles =
      some (schemaIndexContent (indexSourceFiles ((deleteTable tableName now s).1))) := by
  have hstate : (deleteTable tableName now s).1 =
    { schemaFiles := jsSet "index.ts"
        (schemaIndexContent (indexSourceFiles
          { s with archiveDirExists := true,
                   schemaFiles := jsDel (tableName ++ ".ts") s.schemaFiles,
                   archiveFiles := jsSet (tableName ++ "-" ++ toString now ++ ".ts")
                     content s.archiveFiles }))
        (jsDel (tableName ++ ".ts") s.schemaFiles),
      archiveFiles := jsSet (tableName ++ "-" ++ toString now ++ ".ts")
        content s.archiveFiles,
      archiveDirExists := true,
      dropped := s.dropped ++ [dropTableStatement tableName],
      drizzleRuns := s.drizzleRuns + 1 } := by
    simp [deleteTable, h, updateSchemaIndex, runDrizzle]
  rw [hstate]
  refine ⟨jsGet_jsSet_self _ _ _, ?_, ?_⟩
  · intro hmem
    unfold indexSourceFiles listSchemaDir at hmem
    dsimp only at hmem
    rw [mem_sortStrings] at hmem
    have h2 := List.mem_filter.mp hmem
    rcases List.mem_append.mp h2.1 with hk | ha
    · rcases mem_keysOf_jsSet hk with he | hd
      · rw [he] at h2
        exact absurd h2.2 (by decide)
      · exact not_mem_keysOf_jsDel _ _ hd
    · have ha2 : tableName ++ ".ts" = "_archive" := by simpa using ha
      rw [ha2] at h2
      exact absurd h2.2 (by decide)
  · rw [jsGet_jsSet_self]
    congr 1
    apply congrArg
    apply Eq.symm
    apply indexSourceFiles_set_index
    · rfl
    · rfl

/-- C7 (witness): concrete instance deleting `todos` at time 1700000000000
from a state holding its artifact and an index. -/
theorem claim_C7_witness :
    jsGet ("todos" ++ ".ts") todosTableState.schemaFiles =
      some "export const todos = 1;\n" ∧
    (jsGet ("todos" ++ "-" ++ toString 1700000000000 ++ ".ts")
        ((deleteTable "todos" 1700000000000 todosTableState).1).archiveFiles =
      some "export const todos = 1;\n" ∧
    ("todos" ++ ".ts") ∉ indexSourceFiles ((deleteTable "todos" 1700000000000 todosTableState).1) ∧
    jsGet "index.ts" ((deleteTable "todos" 1700000000000 todosTableState).1).schemaFiles =
      some (schemaIndexContent
        (indexSourceFiles ((deleteTable "todos" 1700000000000 todosTableState).1)))) :=
  ⟨by decide, claim_C7 "todos" 1700000000000 todosTableState "export const todos = 1;\n" (by decide)⟩

/-! ## C5 — template upsert cascade -/

theorem pagePath_eq (rd : String) :
    (rd ++ "/[id]") ++ "/page.tsx" = rd ++ "/[id]/page.tsx" := by
  apply string_eq_of_data
  have hlit : ("/[id]" : String).data ++ ("/page.tsx" : String).data =
      ("/[id]/page.tsx" : String).data := by decide
  simp [String.data_append, List.append_assoc, hlit]

theorem dynTableOptions_some (rp : String) (c : Component)
    (h : isDynamicTable c = true) : ∃ o, dynTableOptions rp c = some o := by
  cases c with
  | table id label tn cols ds dr =>
    simp only [isDynamicTable] at h
    exact ⟨⟨rp, ds.endpointPath, ds.primaryKey⟩, by simp [dynTableOptions, h]⟩
  | input id label ta ph bind => simp [isDynamicTable] at h
  | button id label color action => simp [isDynamicTable] at h

theorem dirs_sub_dynFold (rp : String) (l : List DynRouteOptions)
    (st : TemplateState) {x : String} (h : x ∈ st.dirs) :
    x ∈ (l.foldl (fun st o => ensureDynamicRoute rp o st) st).dirs := by
  induction l generalizing st with
  | nil => exact h
  | cons o rest ih =>
    apply ih
    simp only [ensureDynamicRoute, writeTextFileT]
    exact List.mem_append_left _ (List.mem_append_left _ h)

theorem pagefile_after_dynFold (rp : String) (l : List DynRouteOptions)
    (st : TemplateState) (hne : l ≠ []) :
    (jsGet (routeDir (normalizeRoutePath rp) ++ "/[id]/page.tsx")
      (l.foldl (fun st o => ensureDynamicRoute rp o st) st).files).isSome = true := by
  induction l generalizing st with
  | nil => exact absurd rfl hne
  | cons o rest ih =>
    by_cases hr : rest = []
    · subst hr
      simp only [List.foldl]
      rw [← pagePath_eq]
      simp [ensureDynamicRoute, writeTextFileT, jsGet_jsSet_self]
    · exact ih _ hr

/-- C5: after a template upsert the directory of the route named by
`routePath` exists (cascade: `ensureRoute` ran), and for every component of
the payload that is a table flagged `dynamicRouting` the `[id]` detail
page artifact exists under the directory of that route (cascade:
`ensureDynamicRoute` ran). -/
theorem claim_C5 (p : TemplatePayload) (s : TemplateState) :
    routeDir (normalizeRoutePath p.routePath) ∈ ((upsertTemplate p s).1).dirs ∧
    (∀ c ∈ p.components, isDynamicTable c = true →
      (jsGet (routeDir (normalizeRoutePath p.routePath) ++ "/[id]/page.tsx")
        ((upsertTemplate p s).1).files).isSome = true) := by
  have hseed : routeDir (normalizeRoutePath p.routePath) ∈ (ensureRoute p.routePath s).dirs := by
    simp [ensureRoute]
  constructor
  · have hfold := dirs_sub_dynFold p.routePath
      (p.components.filterMap (dynTableOptions p.routePath))
      (ensureRoute p.routePath s) hseed
    simp only [upsertTemplate, writeTextFileT, ensureDynamicPages]
    exact List.mem_append_left _ (List.mem_append_left _ (List.mem_append_left _ hfold))
  · intro c hc hdyn
    obtain ⟨o, ho⟩ := dynTableOptions_some p.routePath c hdyn
    have hne : p.components.filterMap (dynTableOptions p.routePath) ≠ [] :=
      List.ne_nil_of_mem (List.mem_filterMap.mpr ⟨c, hc, ho⟩)
    have hfold := pagefile_after_dynFold p.routePath
      (p.components.filterMap (dynTableOptions p.routePath))
      (ensureRoute p.routePath s) hne
    simp only [upsertTemplate, writeTextFileT, ensureDynamicPages]
    apply isSome_jsGet_jsSet
    apply isSome_jsGet_jsSet
    exact hfold

/-- C5 (witness): concrete instance for the `todo-list` template with one
dynamically-routed table component, from the empty state. -/
theorem claim_C5_witness :
    routeDir (normalizeRoutePath "/todos") ∈
      ((upsertTemplate todoTemplate ⟨[], [], []⟩).1).dirs ∧
    (jsGet (routeDir (normalizeRoutePath "/todos") ++ "/[id]/page.tsx")
      ((upsertTemplate todoTemplate ⟨[], [], []⟩).1).files).isSome = true :=
  ⟨(claim_C5 todoTemplate ⟨[], [], []⟩).1,
   (claim_C5 todoTemplate ⟨[], [], []⟩).2
     (Component.table "t1" none "todos" none ⟨"/api/todos", "id"⟩ (some true))
     (by decide) (by decide)⟩

/-! ## C6 — endpoint deletion and the shared route artifact -/

theorem data_append_left {s t : String} (h : s.data ≠ []) : (s ++ t).data ≠ [] := by
  rw [String.data_append]
  intro hc
  exact h (List.append_eq_nil.mp hc).1

theorem buildRouteFile_ne_empty (pathKey : String) (g : MethodGroup)
    (h : g ≠ []) : buildRouteFile pathKey g ≠ "" := by
  have hlen : ¬ g.length = 0 := by simpa [List.length_eq_zero] using h
  unfold buildRouteFile
  simp only [hlen, if_false]
  refine string_append_ne_empty_of_ne _ ?_
  repeat apply data_append_left
  decide

/-- C6: for a path whose method group is in the manifest and a method of
that group, deleting that endpoint leaves in the manifest exactly the
other methods of the group (in order); when the deleted method was the
last one, the route artifact file is removed; when methods remain, the
artifact on disk is regenerated as `buildRouteFile` of exactly the
remaining group — which emits one handler per remaining method. -/
theorem claim_C6 (path : String) (method : Method) (s : EndpointState)
    (g : MethodGroup)
    (hg : jsGet (normalizeApiPath path) s.manifest = some g)
    (hm : method ∈ keysOf g) :
    keysOf (jsDel method g) = (keysOf g).filter (fun m' => m' ≠ method) ∧
    (jsDel method g = [] →
      jsGet (normalizeApiPath path) ((deleteEndpoint path method s).1).manifest = none ∧
      jsGet (routeFilePath (normalizeApiPath path))
        ((deleteEndpoint path method s).1).files = none) ∧
    (jsDel method g ≠ [] →
      jsGet (normalizeApiPath path) ((deleteEndpoint path method s).1).manifest =
        some (jsDel method g) ∧
      jsGet (routeFilePath (normalizeApiPath path))
        ((deleteEndpoint path method s).1).files =
        some (buildRouteFile (normalizeApiPath path) (jsDel method g))) := by
  refine ⟨keysOf_jsDel method g, ?_, ?_⟩
  · intro hnil
    constructor
    · simp only [deleteEndpoint, hg, hnil]
      simp [jsGet_jsDel_self]
    · simp only [deleteEndpoint, hg, hnil]
      simp [writeRouteFile, buildRouteFile, jsGet_jsDel_self]
  · intro hne
    have hlen : ¬ (jsDel method g).length = 0 := by
      simpa [List.length_eq_zero] using hne
    have hcontent := buildRouteFile_ne_empty (normalizeApiPath path) _ hne
    constructor
    · simp only [deleteEndpoint, hg]
      simp [hlen, jsGet_jsSet_self]
    · simp only [deleteEndpoint, hg]
      simp [hlen, jsGet_jsSet_self, writeRouteFile, hcontent]

/-- C6 (witness): deleting `GET` from the two-method `/api/todos` group
leaves a manifest group and a regenerated artifact containing exactly the
`POST` method. -/
theorem claim_C6_witness :
    jsGet (normalizeApiPath "/todos") ((deleteEndpoint "/todos" .GET todosEndpointState).1).manifest =
      some (jsDel Method.GET todosGroup) ∧
    jsGet (routeFilePath (normalizeApiPath "/todos"))
        ((deleteEndpoint "/todos" .GET todosEndpointState).1).files =
      some (buildRouteFile (normalizeApiPath "/todos") (jsDel Method.GET todosGroup)) :=
  (claim_C6 "/todos" .GET todosEndpointState todosGroup (by decide) (by decide)).2.2
    (by decide)

/-- C9 (witness): concrete instance at `/todos/:id`. -/
theorem claim_C9_witness :
    (∀ seg ∈ (jsSplit '/' "/todos/:id").filter (fun s => s ≠ ""),
      jsStartsWith seg "[" = false) ∧
    ((pathSegments "/todos/:id").filter (fun s => jsStartsWith s "[") =
      (((jsSplit '/' "/todos/:id").filter (fun s => s ≠ "")).filter
        (fun s => jsStartsWith s ":")).map bracketizeSeg ∧
    (breadcrumbs "/todos/:id").length =
      ((jsSplit '/' "/todos/:id").filter (fun s => s ≠ "")).length) :=
  ⟨by decide, claim_C9_amended "/todos/:id" (by decide)⟩

end LowCode
